import Mathlib

/-!
Verification of the geometry / animation core of `ComicBookPage`
(src/src/ComicBookPage.ts) against its natural-language specification.

JavaScript numbers are modelled as rationals (`ℚ`); all inputs appearing in
the claims are integer-valued pixel quantities and small fractions such as
`1.75`, on which JS double arithmetic is exact, so the rational model agrees
with the source on every value a claim mentions.
-/

namespace ComicBookPage

/-- Source constant `panningFactor = 1.75`: at which factor should we pan over a frame. -/
def panningFactor : ℚ := 1.75

/-- Source constant `focusDuration = 750` (milliseconds). -/
def focusDuration : ℚ := 750

/-- Source constant `MAX_ZOOM_VALUE = 3`. -/
def MAX_ZOOM_VALUE : ℚ := 3

/-- Source constant `framePadding = 10` (pixels). -/
def framePadding : ℚ := 10

/-- Pixel size of the full comic image (`interface CanvasSize` in types.ts). -/
structure CanvasSize where
  height : ℚ
  width : ℚ
deriving DecidableEq

/-- A rectangle inside the canvas (`interface ComicFrame extends CanvasSize` in types.ts). -/
structure ComicFrame where
  height : ℚ
  width : ℚ
  left : ℚ
  top : ℚ
deriving DecidableEq

/-- A point, used for the `topLeft`/`bottomRight` members of `ComicFramePosition`. -/
structure Point where
  x : ℚ
  y : ℚ
deriving DecidableEq

/-- Source `interface ComicFramePosition`. -/
structure ComicFramePosition where
  width : ℚ
  height : ℚ
  topLeft : Point
  bottomRight : Point
deriving DecidableEq

/-- Size of the container element: the source reads `this._container.clientWidth` /
`this._container.clientHeight`; both are inputs of the model. -/
structure ContainerSize where
  width : ℚ
  height : ℚ
deriving DecidableEq

/-- Source method `makeFramePosition`: convert a `ComicFrame` to a `ComicFramePosition`. -/
def makeFramePosition (f : ComicFrame) : ComicFramePosition :=
  { width := f.width
    height := f.height
    topLeft := { x := f.left, y := f.top }
    bottomRight := { x := f.left + f.width, y := f.top + f.height } }

/-- The `scale` computed inside `calcFramePositionAndSize`:
`Math.min(MAX_ZOOM_VALUE, clientWidth / frameWidth, clientHeight / frameHeight)`
where `clientWidth`/`clientHeight` are the container sizes minus `framePadding * 2`. -/
def frameScale (container : ContainerSize) (frame : ComicFramePosition) : ℚ :=
  min MAX_ZOOM_VALUE
    (min ((container.width - framePadding * 2) / frame.width)
      ((container.height - framePadding * 2) / frame.height))

/-- Source method `calcFramePositionAndSize`: position and sizing info needed to
show a frame within the container element. -/
def calcFramePositionAndSize (canvasSize : CanvasSize) (container : ContainerSize)
    (frame : ComicFramePosition) : ComicFrame :=
  let clientWidth := container.width - framePadding * 2
  let clientHeight := container.height - framePadding * 2
  let imageWidth := canvasSize.width
  let imageHeight := canvasSize.height
  let frameWidth := frame.width
  let frameHeight := frame.height
  let frameX0 := frame.topLeft.x
  let frameY0 := frame.topLeft.y
  let scale := frameScale container frame
  let scaledImageWidth := imageWidth * scale
  let scaledImageHeight := imageHeight * scale
  let scaledFrameX0 := -(frameX0 * scale)
  let scaledFrameY0 := -(frameY0 * scale)
  let scaledFrameWidth := frameWidth * scale
  let xCentering := if scaledFrameWidth < clientWidth then (clientWidth - scaledFrameWidth) / 2 else 0
  let scaledFrameHeight := frameHeight * scale
  let yCentering := if scaledFrameHeight < clientHeight then (clientHeight - scaledFrameHeight) / 2 else 0
  { top := yCentering + scaledFrameY0 + framePadding
    left := xCentering + scaledFrameX0 + framePadding
    width := scaledImageWidth
    height := scaledImageHeight }

/-- Source method `shouldDoVerticalPanning`:
`height / width >= panningFactor && height > this.clientHeight * panningFactor`. -/
def shouldDoVerticalPanning (container : ContainerSize) (framePosition : ComicFramePosition) : Bool :=
  decide (panningFactor ≤ framePosition.height / framePosition.width) &&
    decide (container.height * panningFactor < framePosition.height)

/-- Source method `shouldDoHorizontalPanning`:
`width / height >= panningFactor && width > this.clientWidth * panningFactor`. -/
def shouldDoHorizontalPanning (container : ContainerSize) (framePosition : ComicFramePosition) : Bool :=
  decide (panningFactor ≤ framePosition.width / framePosition.height) &&
    decide (container.width * panningFactor < framePosition.width)

/-- Vertical branch of `renderCurrentComicFrame`: the pair
`(panFramePosition, finalFramePosition)` built from `topHalfFrame`
(`{...currentFrame, height: currentFrame.width}`); the final position's
`topLeft.y` is incremented by `height - width + framePadding`. -/
def verticalPanPositions (currentFrame : ComicFrame) : ComicFramePosition × ComicFramePosition :=
  let topHalfFrame := { currentFrame with height := currentFrame.width }
  let panFramePosition := makeFramePosition topHalfFrame
  let base := makeFramePosition topHalfFrame
  let finalFramePosition :=
    { base with topLeft := { base.topLeft with
        y := base.topLeft.y + (currentFrame.height - currentFrame.width + framePadding) } }
  (panFramePosition, finalFramePosition)

/-- Horizontal branch of `renderCurrentComicFrame`: built from `leftHalfFrame`
(`{...currentFrame, width: currentFrame.height}`); the final position's
`topLeft.x` is incremented by `width - height + framePadding`. -/
def horizontalPanPositions (currentFrame : ComicFrame) : ComicFramePosition × ComicFramePosition :=
  let leftHalfFrame := { currentFrame with width := currentFrame.height }
  let panFramePosition := makeFramePosition leftHalfFrame
  let base := makeFramePosition leftHalfFrame
  let finalFramePosition :=
    { base with topLeft := { base.topLeft with
        x := base.topLeft.x + (currentFrame.width - currentFrame.height + framePadding) } }
  (panFramePosition, finalFramePosition)

/-- The `if / else if` cascade of `renderCurrentComicFrame` choosing the pan
positions: vertical checked first, horizontal only if vertical is false,
otherwise no panning (`panFramePosition`/`finalFramePosition` stay unset). -/
def panPositions (container : ContainerSize) (currentFrame : ComicFrame) :
    Option (ComicFramePosition × ComicFramePosition) :=
  let framePosition := makeFramePosition currentFrame
  if shouldDoVerticalPanning container framePosition then
    some (verticalPanPositions currentFrame)
  else if shouldDoHorizontalPanning container framePosition then
    some (horizontalPanPositions currentFrame)
  else
    none

/-- One entry of the `keyframes` array handed to animejs: the spread of a
computed `ComicFrame` plus `duration` and, on the first keyframe only, `opacity`. -/
structure Keyframe where
  top : ℚ
  left : ℚ
  width : ℚ
  height : ℚ
  duration : ℚ
  opacity : Option ℚ
deriving DecidableEq

/-- Build a keyframe from a computed position (the `{...this.calcFramePositionAndSize(p), ...}` spread). -/
def mkKeyframe (p : ComicFrame) (duration : ℚ) (opacity : Option ℚ) : Keyframe :=
  { top := p.top, left := p.left, width := p.width, height := p.height
    duration := duration, opacity := opacity }

/-- Decimal digit character, used to model the canonical decimal rendering of
integers by `JSON.stringify`. -/
def digitChar (d : Nat) : Char :=
  match d with
  | 0 => '0' | 1 => '1' | 2 => '2' | 3 => '3' | 4 => '4'
  | 5 => '5' | 6 => '6' | 7 => '7' | 8 => '8' | _ => '9'

/-- Canonical decimal digit list of a natural number (most significant first),
modelling how `JSON.stringify` renders a non-negative integer. -/
def natToDigits (n : Nat) : List Char :=
  if _h : n < 10 then [digitChar n]
  else natToDigits (n / 10) ++ [digitChar (n % 10)]
termination_by n
decreasing_by exact Nat.div_lt_self (by omega) (by omega)

/-- Canonical decimal rendering of an integer as a character list. -/
def intToChars (i : Int) : List Char :=
  if i < 0 then '-' :: natToDigits i.natAbs else natToDigits i.toNat

/-- Numeric value of a list of decimal digit characters. -/
def digitsToNat (l : List Char) : Nat :=
  l.foldl (fun acc c => acc * 10 + (c.toNat - 48)) 0

/-- Read an optionally-signed decimal integer from the front of a character
list, returning the value and the rest; `none` when no digit is present
(modelling a `JSON.parse` failure on a malformed number). -/
def parseIntChars (l : List Char) : Option (Int × List Char) :=
  if l.head? = some '-' then
    let l2 := l.tail
    let ds := l2.takeWhile Char.isDigit
    if ds.isEmpty then none
    else some (-(digitsToNat ds : Int), l2.dropWhile Char.isDigit)
  else
    let ds := l.takeWhile Char.isDigit
    if ds.isEmpty then none
    else some ((digitsToNat ds : Int), l.dropWhile Char.isDigit)

/-- Remove an expected literal prefix from a character list; `none` when the
input does not start with it. -/
def stripPrefixChars : List Char → List Char → Option (List Char)
  | [], l => some l
  | _ :: _, [] => none
  | p :: ps, c :: cs => if c = p then stripPrefixChars ps cs else none

/-- Model of `JSON.stringify(frame)` for the `CanvasSize` object built by
`extractCanvasSize`: the object literal is created with the keys in the order
`height`, `width`, so the serialization is `\x7b"height":H,"width":W\x7d`. -/
def jsonStringifyCanvasSize (height width : Int) : String :=
  String.mk ("\x7b\"height\":".data ++
    (intToChars height ++ (",\"width\":".data ++ (intToChars width ++ "\x7d".data))))

/-- Model of `JSON.parse(...) as CanvasSize` on the cached attribute: accepts
exactly the canonical serializations produced by `jsonStringifyCanvasSize`
(the only writer of the attribute); `none` models a thrown parse error. -/
def jsonParseCanvasSize (s : String) : Option CanvasSize :=
  match stripPrefixChars "\x7b\"height\":".data s.data with
  | none => none
  | some l1 =>
    match parseIntChars l1 with
    | none => none
    | some (h, l2) =>
      match stripPrefixChars ",\"width\":".data l2 with
      | none => none
      | some l3 =>
        match parseIntChars l3 with
        | none => none
        | some (w, l4) =>
          match stripPrefixChars "\x7d".data l4 with
          | none => none
          | some l5 => if l5 = [] then some { height := (h : ℚ), width := (w : ℚ) } else none

/-- State of the main image element (`this._comicImg`) as far as geometry
extraction reads and writes it: its `id`, the `data-canvas-size` attribute
(`dataset["CanvasSize"]`), and its `height`/`width` style properties.
Per the DOM contract the style properties are numeric pixel values; a value
`some n` stands for the string "`n`px" (on which `parseInt` after stripping
the `px` suffix yields exactly `n`), and `none` stands for a missing property
(the source logs an error and keeps the 0 default). -/
structure ImgState where
  id : String
  dataset : Option String
  styleHeight : Option Int
  styleWidth : Option Int
deriving DecidableEq

/-- State of one `body > div` frame element: its `id` and its
`height`/`width`/`left`/`top` style properties, modelled as for `ImgState`. -/
structure DivState where
  id : String
  styleHeight : Option Int
  styleWidth : Option Int
  styleLeft : Option Int
  styleTop : Option Int
deriving DecidableEq

/-- Source method `extractComicFrame`: each field defaults to 0, then is
overwritten by the parsed style value when the property is present. -/
def extractComicFrame (area : DivState) : ComicFrame :=
  { height := ((area.styleHeight.getD 0 : Int) : ℚ)
    width := ((area.styleWidth.getD 0 : Int) : ℚ)
    left := ((area.styleLeft.getD 0 : Int) : ℚ)
    top := ((area.styleTop.getD 0 : Int) : ℚ) }

/-- Source method `extractCanvasSize`: when the cache attribute is present the
stored JSON is parsed (`none` in the first component models the `JSON.parse`
exception on a malformed attribute); otherwise the size is read from the
style properties (0 default for a missing one), serialized into the cache
attribute, and returned. -/
def extractCanvasSize (img : ImgState) : Option CanvasSize × ImgState :=
  match img.dataset with
  | some s => (jsonParseCanvasSize s, img)
  | none =>
    let height : Int := img.styleHeight.getD 0
    let width : Int := img.styleWidth.getD 0
    let frame : CanvasSize := { height := (height : ℚ), width := (width : ℚ) }
    (some frame, { img with dataset := some (jsonStringifyCanvasSize height width) })

/-- The mutable state of a `ComicBookPage` instance that the claims concern.
`canvasSize` is assigned unconditionally in the constructor, so it is modelled
as always present (the `this._canvasSize == undefined` part of the render
guard is then vacuous); `areas` is the `_areas` memo of the `comicAreas`
getter; `domParses` counts how many times the registry was (re)built by
querying the DOM. -/
structure PageState where
  img : ImgState
  divs : List DivState
  canvasSize : CanvasSize
  areas : Option (List (String × ComicFrame))
  currentFrame : Option ComicFrame
  duration : Option ℚ
  containerWidth : ℚ
  containerHeight : ℚ
  domParses : Nat
deriving DecidableEq

/-- Source method `ensureComicFrame`: without an argument it synthesizes the
whole-page frame from the canvas size. -/
def ensureComicFrame (canvasSize : CanvasSize) (frame : Option ComicFrame) : ComicFrame :=
  match frame with
  | none => { height := canvasSize.height, width := canvasSize.width, left := 0, top := 0 }
  | some f => f

/-- The registry contents built by the `comicAreas` getter on a cache miss:
the whole-page frame under the image id (with and without `#`), then for each
`body > div` element its extracted frame under its id (with and without `#`).
Entries are in insertion order of the `Map.set` calls. -/
def buildAreas (st : PageState) : List (String × ComicFrame) :=
  let canvasFrame := ensureComicFrame st.canvasSize none
  [(st.img.id, canvasFrame), ("#" ++ st.img.id, canvasFrame)] ++
    st.divs.flatMap (fun area =>
      [(area.id, extractComicFrame area), ("#" ++ area.id, extractComicFrame area)])

/-- `Map.get`: the last `Map.set` for a key wins, hence lookup in the reversed
insertion-order list. -/
def mapGet (m : List (String × ComicFrame)) (k : String) : Option ComicFrame :=
  m.reverse.lookup k

/-- `Map.has`. -/
def mapHas (m : List (String × ComicFrame)) (k : String) : Bool :=
  (mapGet m k).isSome

/-- Source getter `comicAreas`: returns the `_areas` memo when present,
otherwise builds the registry from the DOM, caches it, and returns it. -/
def comicAreas (st : PageState) : List (String × ComicFrame) × PageState :=
  match st.areas with
  | some m => (m, st)
  | none =>
    let m := buildAreas st
    (m, { st with areas := some m, domParses := st.domParses + 1 })

/-- Source method `renderCurrentComicFrame`, returning the `keyframes` array
handed to `animejs` (`none` when the guard on undefined state returns early
and no animation is started; `canvasSize` is always defined, see `PageState`).
The final keyframe's duration is `this._duration ?? 0 - 2 * focusDuration`:
`??` binds looser than `-`, so this is `_duration` with the whole
`0 - 2 * focusDuration` as the fallback for an undefined `_duration`. -/
def renderCurrentComicFrame (st : PageState) : Option (List Keyframe) :=
  match st.currentFrame, st.duration with
  | some currentFrame, some duration =>
    let container : ContainerSize := { width := st.containerWidth, height := st.containerHeight }
    let framePosition := makeFramePosition currentFrame
    let first := mkKeyframe (calcFramePositionAndSize st.canvasSize container framePosition)
      focusDuration (some 1)
    match panPositions container currentFrame with
    | some (panFramePosition, finalFramePosition) =>
      some [first,
        mkKeyframe (calcFramePositionAndSize st.canvasSize container panFramePosition)
          focusDuration none,
        mkKeyframe (calcFramePositionAndSize st.canvasSize container finalFramePosition)
          ((some duration).getD (0 - 2 * focusDuration)) none]
    | none => some [first]
  | _, _ => none

/-- Model of `id.toLocaleLowerCase()` in the default locale: lowercase each
character (ASCII ids, which is what DOM ids here are, lowercase identically
in every locale). -/
def toLowerStr (s : String) : String := String.mk (s.data.map Char.toLower)

/-- Source method `SetCurrentFrame`: `this.comicAreas.has(id.toLocaleLowerCase())`,
and when found, a second `comicAreas` read for `.get`, storing the frame and
duration and rendering. Returns the new state and the keyframes of the started
animation (`none` when no animation is started). -/
def SetCurrentFrame (st : PageState) (id : String) (duration : ℚ) :
    PageState × Option (List Keyframe) :=
  if mapHas (comicAreas st).1 (toLowerStr id) then
    let st3 := { (comicAreas (comicAreas st).2).2 with
      currentFrame := mapGet (comicAreas (comicAreas st).2).1 (toLowerStr id)
      duration := some duration }
    (st3, renderCurrentComicFrame st3)
  else
    ((comicAreas st).2, none)

/-- Source field `onResize`: the resize listener just calls
`renderCurrentComicFrame`, which reads only the already-stored fields and
mutates none of them (its only assignment is `this.animeInstance`, the started
tween, returned here as the second component). -/
def onResize (st : PageState) : PageState × Option (List Keyframe) :=
  (st, renderCurrentComicFrame st)

/-- The frame of the spec's panning scenario: `{left:0, top:0, width:500, height:1750}`. -/
def scenarioFrame : ComicFrame := { height := 1750, width := 500, left := 0, top := 0 }

/-- The container of the spec's panning scenario: 500 × 500. -/
def scenarioContainer : ContainerSize := { width := 500, height := 500 }

/-- The spec's panning scenario: canvas 1000 × 2000, frame `scenarioFrame`,
container 500 × 500, with a requested duration of 3000 ms. -/
def scenarioState : PageState :=
  { img := { id := "page", dataset := none, styleHeight := some 2000, styleWidth := some 1000 }
    divs := []
    canvasSize := { height := 2000, width := 1000 }
    areas := none
    currentFrame := some scenarioFrame
    duration := some 3000
    containerWidth := 500
    containerHeight := 500
    domParses := 0 }

/-- The panning scenario with a requested duration of 1000 ms, below twice the
focus duration of 750 ms. -/
def shortDurationState : PageState :=
  { scenarioState with duration := some 1000 }

/-- A frame element whose DOM id contains uppercase letters. -/
def upperCaseDiv : DivState :=
  { id := "Frame1", styleHeight := some 100, styleWidth := some 100
    styleLeft := some 10, styleTop := some 10 }

/-- A page whose only frame element has the mixed-case id "Frame1" and whose
image has the all-lowercase id "page". -/
def upperCaseState : PageState :=
  { img := { id := "page", dataset := none, styleHeight := some 2000, styleWidth := some 1000 }
    divs := [upperCaseDiv]
    canvasSize := { height := 2000, width := 1000 }
    areas := none
    currentFrame := none
    duration := none
    containerWidth := 500
    containerHeight := 500
    domParses := 0 }

/-- Modelled from the spec's words, for refinement comparison with `frameScale`:
`scale = min(MAX_ZOOM, (containerWidth - 2·padding) / frameWidth,
(containerHeight - 2·padding) / frameHeight)` with MAX_ZOOM = 3 and padding = 10. -/
def scaleSpecFormula (containerWidth containerHeight frameWidth frameHeight : ℚ) : ℚ :=
  min 3 (min ((containerWidth - 2 * 10) / frameWidth) ((containerHeight - 2 * 10) / frameHeight))

/-- A 500 × 500 frame at the origin; after the scale of 1 it exactly fills a
520 × 520 container minus the 10 px padding on each side. -/
def squareFrame : ComicFrame := { height := 500, width := 500, left := 0, top := 0 }

/-- A 520 × 520 container, whose padded interior is 500 × 500. -/
def squareContainer : ContainerSize := { width := 520, height := 520 }

/- ------------------------------------------------------------------ -/
/- Helper lemmas shared by the claim theorems.                         -/
/- ------------------------------------------------------------------ -/

theorem comicAreas_stable (st : PageState) :
    comicAreas ((comicAreas st).2) = ((comicAreas st).1, (comicAreas st).2) := by
  cases h : st.areas <;> simp [comicAreas, h]

theorem comicAreas_currentFrame (st : PageState) :
    ((comicAreas st).2).currentFrame = st.currentFrame := by
  cases h : st.areas <;> simp [comicAreas, h]

theorem comicAreas_duration (st : PageState) :
    ((comicAreas st).2).duration = st.duration := by
  cases h : st.areas <;> simp [comicAreas, h]

theorem renderCurrentComicFrame_head (st : PageState) (cf : ComicFrame) (d : ℚ)
    (h1 : st.currentFrame = some cf) (h2 : st.duration = some d) :
    ((renderCurrentComicFrame st).getD []).head? =
      some (mkKeyframe (calcFramePositionAndSize st.canvasSize
        { width := st.containerWidth, height := st.containerHeight }
        (makeFramePosition cf)) focusDuration (some 1)) := by
  simp only [renderCurrentComicFrame, h1, h2]
  rcases hp : panPositions { width := st.containerWidth, height := st.containerHeight } cf with
    _ | ⟨p, f⟩ <;> simp [hp]

theorem renderCurrentComicFrame_isSome (st : PageState) (cf : ComicFrame) (d : ℚ)
    (h1 : st.currentFrame = some cf) (h2 : st.duration = some d) :
    (renderCurrentComicFrame st).isSome = true := by
  simp only [renderCurrentComicFrame, h1, h2]
  rcases hp : panPositions { width := st.containerWidth, height := st.containerHeight } cf with
    _ | ⟨p, f⟩ <;> simp [hp]

theorem digitChar_toNat (d : Nat) (h : d < 10) : (digitChar d).toNat - 48 = d := by
  interval_cases d <;> decide

theorem digitChar_isDigit (d : Nat) (h : d < 10) : (digitChar d).isDigit = true := by
  interval_cases d <;> decide

theorem digitsToNat_append (l : List Char) (c : Char) :
    digitsToNat (l ++ [c]) = digitsToNat l * 10 + (c.toNat - 48) := by
  simp [digitsToNat, List.foldl_append]

theorem digitsToNat_natToDigits (n : Nat) : digitsToNat (natToDigits n) = n := by
  induction n using Nat.strong_induction_on with
  | _ n ih =>
    rw [natToDigits]
    split
    · next h =>
      have hd := digitChar_toNat n h
      simp only [digitsToNat, List.foldl_cons, List.foldl_nil]
      omega
    · next h =>
      rw [digitsToNat_append, ih (n / 10) (Nat.div_lt_self (by omega) (by omega))]
      have hd := digitChar_toNat (n % 10) (Nat.mod_lt _ (by omega))
      omega

theorem natToDigits_digits (n : Nat) : ∀ c ∈ natToDigits n, c.isDigit = true := by
  induction n using Nat.strong_induction_on with
  | _ n ih =>
    rw [natToDigits]
    split
    · next h =>
      intro c hc
      simp only [List.mem_singleton] at hc
      subst hc
      exact digitChar_isDigit n h
    · next h =>
      intro c hc
      rw [List.mem_append] at hc
      rcases hc with hc | hc
      · exact ih (n / 10) (Nat.div_lt_self (by omega) (by omega)) c hc
      · simp only [List.mem_singleton] at hc
        subst hc
        exact digitChar_isDigit (n % 10) (Nat.mod_lt _ (by omega))

theorem natToDigits_ne_nil (n : Nat) : natToDigits n ≠ [] := by
  rw [natToDigits]
  split <;> simp

theorem takeWhile_append_of (p : Char → Bool) (ds rest : List Char)
    (h1 : ∀ c ∈ ds, p c = true) (h2 : ∀ c, rest.head? = some c → p c = false) :
    (ds ++ rest).takeWhile p = ds ∧ (ds ++ rest).dropWhile p = rest := by
  induction ds with
  | nil =>
    simp only [List.nil_append]
    cases rest with
    | nil => simp
    | cons r rs =>
      have hr := h2 r rfl
      simp [List.takeWhile_cons, List.dropWhile_cons, hr]
  | cons d ds ih =>
    have hd : p d = true := h1 d (List.mem_cons_self _ _)
    have ih' := ih (fun c hc => h1 c (List.mem_cons_of_mem _ hc))
    simp [List.takeWhile_cons, List.dropWhile_cons, hd, ih'.1, ih'.2]

theorem parseIntChars_intToChars (i : Int) (rest : List Char)
    (h2 : ∀ c, rest.head? = some c → c.isDigit = false) :
    parseIntChars (intToChars i ++ rest) = some (i, rest) := by
  by_cases hi : i < 0
  · rw [intToChars, if_pos hi, List.cons_append]
    have tw := takeWhile_append_of Char.isDigit (natToDigits i.natAbs) rest
      (natToDigits_digits _) h2
    rw [parseIntChars]
    simp only [List.head?_cons, List.tail_cons, if_pos rfl]
    rw [tw.1, tw.2]
    have hne := natToDigits_ne_nil i.natAbs
    simp only [List.isEmpty_iff, hne, if_neg, ite_false]
    rw [digitsToNat_natToDigits]
    have : -((i.natAbs : Nat) : Int) = i := by omega
    rw [this]
    simp
  · rw [intToChars, if_neg hi]
    have hne := natToDigits_ne_nil i.toNat
    have hdig := natToDigits_digits i.toNat
    have tw := takeWhile_append_of Char.isDigit (natToDigits i.toNat) rest hdig h2
    have hhead : ¬((natToDigits i.toNat ++ rest).head? = some '-') := by
      obtain ⟨c, cs, hc⟩ := List.exists_cons_of_ne_nil hne
      rw [hc, List.cons_append, List.head?_cons]
      intro hcd
      have hcdig : c.isDigit = true := hdig c (by rw [hc]; exact List.mem_cons_self _ _)
      rw [Option.some.injEq] at hcd
      subst hcd
      exact absurd hcdig (by decide)
    rw [parseIntChars, if_neg hhead, tw.1, tw.2]
    have hnat : ((i.toNat : Nat) : Int) = i := by omega
    simp only [List.isEmpty_iff, hne, ite_false, digitsToNat_natToDigits, hnat]

theorem stripPrefixChars_append (p rest : List Char) :
    stripPrefixChars p (p ++ rest) = some rest := by
  induction p with
  | nil => simp [stripPrefixChars]
  | cons c cs ih => simp [stripPrefixChars, ih]

theorem jsonRoundTrip (h w : Int) :
    jsonParseCanvasSize (jsonStringifyCanvasSize h w) =
      some { height := (h : ℚ), width := (w : ℚ) } := by
  have hmid : ∀ c, ((",\"width\":".data ++ (intToChars w ++ "\x7d".data)).head? = some c) →
      c.isDigit = false := by
    intro c hc
    rw [show (",\"width\":".data ++ (intToChars w ++ "\x7d".data)) =
      ',' :: ("\"width\":".data ++ (intToChars w ++ "\x7d".data)) from rfl] at hc
    rw [List.head?_cons, Option.some.injEq] at hc
    subst hc
    decide
  have hend : ∀ c, (("\x7d".data : List Char).head? = some c) → c.isDigit = false := by
    intro c hc
    rw [show ("\x7d".data : List Char) = ['\x7d'] from rfl, List.head?_cons,
      Option.some.injEq] at hc
    subst hc
    decide
  have hdata : (jsonStringifyCanvasSize h w).data =
      "\x7b\"height\":".data ++
        (intToChars h ++ (",\"width\":".data ++ (intToChars w ++ "\x7d".data))) := rfl
  rw [jsonParseCanvasSize, hdata, stripPrefixChars_append]
  simp only [parseIntChars_intToChars h _ hmid, stripPrefixChars_append,
    parseIntChars_intToChars w _ hend,
    show stripPrefixChars "\x7d".data "\x7d".data = some [] from rfl]
  simp

/- ------------------------------------------------------------------ -/
/- Claim theorems.                                                     -/
/- ------------------------------------------------------------------ -/

/-- C2 (counterexample): at the double boundary — height/width ratio exactly
`panningFactor` and height exactly `containerHeight * panningFactor` — the
strict `>` on the height comparison fails, so `shouldDoVerticalPanning`
returns `false`, contradicting the claim that it triggers there. -/
theorem verticalPanning_exact_height_boundary_false :
    (700 : ℚ) / 400 = panningFactor ∧
    (700 : ℚ) = 400 * panningFactor ∧
    shouldDoVerticalPanning { width := 400, height := 400 }
      (makeFramePosition { height := 700, width := 400, left := 0, top := 0 }) = false := by
  refine ⟨by norm_num [panningFactor], by norm_num [panningFactor], ?_⟩
  have hno : ¬((400 : ℚ) * panningFactor < 700) := by norm_num [panningFactor]
  simp [shouldDoVerticalPanning, makeFramePosition, hno]

/-- C2 (amended): a frame whose height/width ratio is exactly `panningFactor`
does trigger vertical panning (the ratio comparison is the inclusive `>=`)
provided its height is strictly greater than `containerHeight * panningFactor`;
the height comparison is strict. -/
theorem verticalPanning_ratio_boundary (cw ch h w l t : ℚ)
    (hr : h / w = panningFactor) (hh : ch * panningFactor < h) :
    shouldDoVerticalPanning { width := cw, height := ch }
      (makeFramePosition { height := h, width := w, left := l, top := t }) = true := by
  simp only [shouldDoVerticalPanning, makeFramePosition, Bool.and_eq_true, decide_eq_true_eq]
  exact ⟨le_of_eq hr.symm, hh⟩

/-- Witness for `verticalPanning_ratio_boundary` at container height 300 and a
700 × 400 frame. -/
theorem verticalPanning_ratio_boundary_witness :
    (700 : ℚ) / 400 = panningFactor ∧ (300 : ℚ) * panningFactor < 700 ∧
    shouldDoVerticalPanning { width := 400, height := 300 }
      (makeFramePosition { height := 700, width := 400, left := 0, top := 0 }) = true :=
  ⟨by norm_num [panningFactor], by norm_num [panningFactor],
    verticalPanning_ratio_boundary 400 300 700 400 0 0 (by norm_num [panningFactor])
      (by norm_num [panningFactor])⟩

/-- C5: the scale used by `calcFramePositionAndSize` equals the spec formula
`min(MAX_ZOOM, (containerWidth - 2·padding)/frameWidth,
(containerHeight - 2·padding)/frameHeight)` with MAX_ZOOM = 3, padding = 10;
it never exceeds 3, and it is the factor applied to both canvas dimensions. -/
theorem frameScale_formula_and_bound (canvasSize : CanvasSize) (container : ContainerSize)
    (fp : ComicFramePosition) :
    frameScale container fp = scaleSpecFormula container.width container.height fp.width fp.height ∧
    frameScale container fp ≤ 3 ∧
    (calcFramePositionAndSize canvasSize container fp).width =
      canvasSize.width * frameScale container fp ∧
    (calcFramePositionAndSize canvasSize container fp).height =
      canvasSize.height * frameScale container fp := by
  refine ⟨?_, ?_, rfl, rfl⟩
  · norm_num [frameScale, scaleSpecFormula, MAX_ZOOM_VALUE, framePadding]
  · unfold frameScale MAX_ZOOM_VALUE
    exact min_le_left _ _

/-- C6: when the lowercased id is not a registry key, `SetCurrentFrame` leaves
the stored current frame and duration unchanged and starts no animation. -/
theorem setCurrentFrame_unknown_id_noop (st : PageState) (s : String) (d : ℚ)
    (h : mapHas (comicAreas st).1 (toLowerStr s) = false) :
    (SetCurrentFrame st s d).1.currentFrame = st.currentFrame ∧
    (SetCurrentFrame st s d).1.duration = st.duration ∧
    (SetCurrentFrame st s d).2 = none := by
  simp [SetCurrentFrame, h, comicAreas_currentFrame, comicAreas_duration]

/-- Witness for `setCurrentFrame_unknown_id_noop` with the unknown id "nope". -/
theorem setCurrentFrame_unknown_id_noop_witness :
    mapHas (comicAreas upperCaseState).1 (toLowerStr "nope") = false ∧
    ((SetCurrentFrame upperCaseState "nope" 500).1.currentFrame = upperCaseState.currentFrame ∧
      (SetCurrentFrame upperCaseState "nope" 500).1.duration = upperCaseState.duration ∧
      (SetCurrentFrame upperCaseState "nope" 500).2 = none) :=
  ⟨rfl, setCurrentFrame_unknown_id_noop upperCaseState "nope" 500 rfl⟩

/-- C7: on each axis the centering offset is `(available - scaledFrameSize)/2`
when the scaled frame is strictly smaller than the padded container dimension
and 0 otherwise; the returned left/top are `-topLeft·scale` plus that offset
plus the 10 px padding, and for a frame whose scaled size exactly matches the
padded container on both axes both centering offsets vanish. -/
theorem calcFrame_centering (canvasSize : CanvasSize) (container : ContainerSize)
    (fp : ComicFramePosition) :
    ((calcFramePositionAndSize canvasSize container fp).left =
      (if fp.width * frameScale container fp < container.width - framePadding * 2 then
        ((container.width - framePadding * 2) - fp.width * frameScale container fp) / 2 else 0) +
      (-(fp.topLeft.x * frameScale container fp)) + framePadding) ∧
    ((calcFramePositionAndSize canvasSize container fp).top =
      (if fp.height * frameScale container fp < container.height - framePadding * 2 then
        ((container.height - framePadding * 2) - fp.height * frameScale container fp) / 2 else 0) +
      (-(fp.topLeft.y * frameScale container fp)) + framePadding) ∧
    (fp.width * frameScale container fp = container.width - framePadding * 2 →
      fp.height * frameScale container fp = container.height - framePadding * 2 →
      (calcFramePositionAndSize canvasSize container fp).left =
        -(fp.topLeft.x * frameScale container fp) + framePadding ∧
      (calcFramePositionAndSize canvasSize container fp).top =
        -(fp.topLeft.y * frameScale container fp) + framePadding) := by
  refine ⟨rfl, rfl, fun hx hy => ?_⟩
  constructor
  · simp [calcFramePositionAndSize, hx]
  · simp [calcFramePositionAndSize, hy]

/-- Witness for `calcFrame_centering`: a 500 × 500 frame in a 520 × 520
container scales by 1 and exactly fills the padded interior, so both
centering offsets are 0 and left/top are the bare translation plus padding. -/
theorem calcFrame_centering_witness :
    (makeFramePosition squareFrame).width * frameScale squareContainer (makeFramePosition squareFrame) =
      squareContainer.width - framePadding * 2 ∧
    (makeFramePosition squareFrame).height * frameScale squareContainer (makeFramePosition squareFrame) =
      squareContainer.height - framePadding * 2 ∧
    ((calcFramePositionAndSize { height := 2000, width := 1000 } squareContainer
        (makeFramePosition squareFrame)).left =
      -((makeFramePosition squareFrame).topLeft.x *
        frameScale squareContainer (makeFramePosition squareFrame)) + framePadding ∧
    (calcFramePositionAndSize { height := 2000, width := 1000 } squareContainer
        (makeFramePosition squareFrame)).top =
      -((makeFramePosition squareFrame).topLeft.y *
        frameScale squareContainer (makeFramePosition squareFrame)) + framePadding) := by
  have hx : (makeFramePosition squareFrame).width *
      frameScale squareContainer (makeFramePosition squareFrame) =
      squareContainer.width - framePadding * 2 := by
    norm_num [makeFramePosition, squareFrame, squareContainer, frameScale, framePadding,
      MAX_ZOOM_VALUE, min_def]
  have hy : (makeFramePosition squareFrame).height *
      frameScale squareContainer (makeFramePosition squareFrame) =
      squareContainer.height - framePadding * 2 := by
    norm_num [makeFramePosition, squareFrame, squareContainer, frameScale, framePadding,
      MAX_ZOOM_VALUE, min_def]
  exact ⟨hx, hy,
    (calcFrame_centering { height := 2000, width := 1000 } squareContainer
      (makeFramePosition squareFrame)).2.2 hx hy⟩

/-- C9: on resize the handler re-renders from exactly the stored current frame
and duration — the state (including the registry memo) is unchanged and the
emitted keyframes are those of `renderCurrentComicFrame` on the stored state;
when no current frame is set, nothing changes and no animation starts. -/
theorem onResize_uses_stored_state (st : PageState) (cf : ComicFrame) (d : ℚ)
    (h1 : st.currentFrame = some cf) (h2 : st.duration = some d) :
    (onResize st).1 = st ∧
    (onResize st).2 = renderCurrentComicFrame st ∧
    ((onResize st).2).isSome = true ∧
    (∀ st2 : PageState, st2.currentFrame = none → onResize st2 = (st2, none)) := by
  refine ⟨rfl, rfl, ?_, ?_⟩
  · simpa [onResize] using renderCurrentComicFrame_isSome st cf d h1 h2
  · intro st2 h
    simp [onResize, renderCurrentComicFrame, h]

/-- Witness for `onResize_uses_stored_state` on the panning scenario state. -/
theorem onResize_uses_stored_state_witness :
    scenarioState.currentFrame = some scenarioFrame ∧
    scenarioState.duration = some 3000 ∧
    ((onResize scenarioState).1 = scenarioState ∧
      (onResize scenarioState).2 = renderCurrentComicFrame scenarioState ∧
      ((onResize scenarioState).2).isSome = true ∧
      (∀ st2 : PageState, st2.currentFrame = none → onResize st2 = (st2, none))) :=
  ⟨rfl, rfl, onResize_uses_stored_state scenarioState scenarioFrame 3000 rfl rfl⟩

theorem scenario_vertical :
    shouldDoVerticalPanning { width := (500 : ℚ), height := (500 : ℚ) }
      (makeFramePosition scenarioFrame) = true := by
  simp only [shouldDoVerticalPanning, makeFramePosition, scenarioFrame, Bool.and_eq_true,
    decide_eq_true_eq]
  norm_num [panningFactor]

theorem scenario_render_length :
    ((renderCurrentComicFrame scenarioState).getD []).length = 3 := by
  simp only [renderCurrentComicFrame, scenarioState]
  simp [panPositions, scenario_vertical]

theorem scenario_final_y :
    (verticalPanPositions scenarioFrame).2.topLeft.y = scenarioFrame.top + (1750 - 500 + 10) := by
  simp [verticalPanPositions, makeFramePosition, scenarioFrame, framePadding]

/-- C1 (evidence for the code bug): with a requested duration of 1000 ms on the
vertical-panning scenario, the final (phase-2) keyframe's duration handed to
the tween engine is the raw 1000 — in `this._duration ?? 0 - 2 * focusDuration`
the `??` binds looser than `-`, so a defined duration is passed unguarded —
whereas the claimed remaining time would be 1000 - 2·750 = -500. -/
theorem shortDuration_final_keyframe_duration :
    ((renderCurrentComicFrame shortDurationState).getD []).length = 3 ∧
    (((renderCurrentComicFrame shortDurationState).getD []).getLast?).map Keyframe.duration =
      some 1000 ∧
    (1000 : ℚ) - 2 * focusDuration = -500 := by
  refine ⟨?_, ?_, by norm_num [focusDuration]⟩ <;>
  · simp only [renderCurrentComicFrame, shortDurationState, scenarioState]
    simp [panPositions, scenario_vertical, mkKeyframe]

/-- C3 (counterexample): for the frame element with DOM id "Frame1" the
registry holds the verbatim keys "Frame1" and "#Frame1" but no lowercased key
"frame1", so `SetCurrentFrame`, which lowercases its argument, fails to find
the frame even for the exact original casing: the call is a no-op. -/
theorem upperCase_id_lookup_fails :
    mapGet (buildAreas upperCaseState) "frame1" = none ∧
    mapGet (buildAreas upperCaseState) "Frame1" = some (extractComicFrame upperCaseDiv) ∧
    (SetCurrentFrame upperCaseState "Frame1" 500).1.currentFrame = none ∧
    (SetCurrentFrame upperCaseState "Frame1" 500).2 = none :=
  ⟨rfl, rfl, rfl, rfl⟩

/-- C3 (amended): the registry maps each element's id verbatim — not
lowercased — both with and without a leading '#', to its frame, while
`SetCurrentFrame` lowercases its argument before lookup; hence an activation
starts an animation exactly when the registry holds the lowercased key, and
ids containing uppercase letters are never found. -/
theorem registry_verbatim_keys_and_lowercased_lookup (st : PageState) (area : DivState)
    (hmem : area ∈ st.divs) :
    (area.id, extractComicFrame area) ∈ buildAreas st ∧
    ("#" ++ area.id, extractComicFrame area) ∈ buildAreas st ∧
    (∀ s d, ((SetCurrentFrame st s d).2).isSome = mapHas (comicAreas st).1 (toLowerStr s)) := by
  refine ⟨?_, ?_, ?_⟩
  · simp only [buildAreas, List.mem_append, List.mem_flatMap]
    exact Or.inr ⟨area, hmem, by simp⟩
  · simp only [buildAreas, List.mem_append, List.mem_flatMap]
    exact Or.inr ⟨area, hmem, by simp⟩
  · intro s d
    by_cases hb : mapHas (comicAreas st).1 (toLowerStr s) = true
    · rw [hb]
      obtain ⟨f, hf⟩ := Option.isSome_iff_exists.mp (by simpa [mapHas] using hb)
      have hst := comicAreas_stable st
      simp only [SetCurrentFrame, hb, if_true]
      exact renderCurrentComicFrame_isSome _ f d (by simp [hst, hf]) (by simp)
    · simp only [Bool.not_eq_true] at hb
      simp [SetCurrentFrame, hb]

/-- Witness for `registry_verbatim_keys_and_lowercased_lookup` on the page
whose single frame element has id "Frame1". -/
theorem registry_verbatim_keys_and_lowercased_lookup_witness :
    upperCaseDiv ∈ upperCaseState.divs ∧
    ((upperCaseDiv.id, extractComicFrame upperCaseDiv) ∈ buildAreas upperCaseState ∧
      ("#" ++ upperCaseDiv.id, extractComicFrame upperCaseDiv) ∈ buildAreas upperCaseState ∧
      (∀ s d, ((SetCurrentFrame upperCaseState s d).2).isSome =
        mapHas (comicAreas upperCaseState).1 (toLowerStr s))) :=
  ⟨by simp [upperCaseState],
    registry_verbatim_keys_and_lowercased_lookup upperCaseState upperCaseDiv
      (by simp [upperCaseState])⟩

/-- C4: the first keyframe always targets the full requested frame with
duration `focusDuration` = 750 ms and opacity explicitly 1; and in the
scenario canvas 1000 × 2000, frame 500 × 1750 at the origin, container
500 × 500, vertical panning is chosen, exactly 3 keyframes are produced, and
the phase-2 sub-frame's topLeft.y is offset from the frame's top by
1750 - 500 + 10 = 1260. -/
theorem render_phase0_and_panning_scenario (st : PageState) (cf : ComicFrame) (d : ℚ)
    (h1 : st.currentFrame = some cf) (h2 : st.duration = some d) :
    ((renderCurrentComicFrame st).getD []).head? =
      some (mkKeyframe (calcFramePositionAndSize st.canvasSize
        { width := st.containerWidth, height := st.containerHeight }
        (makeFramePosition cf)) focusDuration (some 1)) ∧
    focusDuration = 750 ∧
    shouldDoVerticalPanning scenarioContainer (makeFramePosition scenarioFrame) = true ∧
    ((renderCurrentComicFrame scenarioState).getD []).length = 3 ∧
    (verticalPanPositions scenarioFrame).2.topLeft.y =
      scenarioFrame.top + (1750 - 500 + 10) := by
  refine ⟨renderCurrentComicFrame_head st cf d h1 h2, rfl, ?_, scenario_render_length,
    scenario_final_y⟩
  simpa [scenarioContainer] using scenario_vertical

/-- Witness for `render_phase0_and_panning_scenario` instantiated at the
scenario state itself. -/
theorem render_phase0_and_panning_scenario_witness :
    scenarioState.currentFrame = some scenarioFrame ∧
    scenarioState.duration = some 3000 ∧
    (((renderCurrentComicFrame scenarioState).getD []).head? =
      some (mkKeyframe (calcFramePositionAndSize scenarioState.canvasSize
        { width := scenarioState.containerWidth, height := scenarioState.containerHeight }
        (makeFramePosition scenarioFrame)) focusDuration (some 1)) ∧
      focusDuration = 750 ∧
      shouldDoVerticalPanning scenarioContainer (makeFramePosition scenarioFrame) = true ∧
      ((renderCurrentComicFrame scenarioState).getD []).length = 3 ∧
      (verticalPanPositions scenarioFrame).2.topLeft.y =
        scenarioFrame.top + (1750 - 500 + 10)) :=
  ⟨rfl, rfl, render_phase0_and_panning_scenario scenarioState scenarioFrame 3000 rfl rfl⟩

/-- C8: geometry extraction is idempotent — a second `comicAreas` read returns
the identical cached registry with the state unchanged (so the DOM is parsed
at most once, `domParses ≤ old + 1`), and a second `extractCanvasSize` call,
which parses the JSON cached by the first call, returns the identical
width/height pair with the image state unchanged. -/
theorem extraction_idempotent (st : PageState) (img : ImgState) :
    comicAreas ((comicAreas st).2) = ((comicAreas st).1, (comicAreas st).2) ∧
    ((comicAreas st).2).domParses ≤ st.domParses + 1 ∧
    extractCanvasSize ((extractCanvasSize img).2) =
      ((extractCanvasSize img).1, (extractCanvasSize img).2) := by
  refine ⟨comicAreas_stable st, ?_, ?_⟩
  · cases h : st.areas <;> simp [comicAreas, h]
  · cases h : img.dataset with
    | none => simp [extractCanvasSize, h, jsonRoundTrip]
    | some s => simp [extractCanvasSize, h]

/-- C10: both returned dimensions are the canvas dimensions multiplied by the
same scale, so the rendered image always keeps the canvas aspect ratio. -/
theorem calcFrame_aspect_ratio (canvasSize : CanvasSize) (container : ContainerSize)
    (fp : ComicFramePosition) :
    (calcFramePositionAndSize canvasSize container fp).width * canvasSize.height =
      (calcFramePositionAndSize canvasSize container fp).height * canvasSize.width := by
  simp only [calcFramePositionAndSize]
  ring

end ComicBookPage
